import Mathlib

/-
Verification of the media-library store, thumbnail pipeline and playback
controller.  Definitions are shallow embeddings of the TypeScript source:
the zustand store (addVideo, removeVideo, updateVideoProgress,
updateSettings, partialize), the helper generateThumbnail, and the
VideoPlayer component's keyboard and tap handlers and its bind effect.
Numbers that are JS floats are modelled as rationals; timestamps as
integers.
-/

/-- Intrinsic metadata of a media item, from types.ts (VideoMetadata). -/
structure VideoMetadata where
  duration : ℚ
  width : ℚ
  height : ℚ
  format : Option String
  size : Option ℤ
deriving Repr, DecidableEq

/-- A catalog entry, from types.ts (VideoItem).  source is the object URL. -/
structure VideoItem where
  id : String
  title : String
  source : String
  thumbnail : Option String
  subtitleUrl : Option String
  metadata : Option VideoMetadata
  addedAt : ℤ
  lastPlayedAt : Option ℤ
  progress : Option ℚ
  favorite : Option Bool
deriving Repr, DecidableEq

/-- The preferences singleton, from types.ts (PlayerSettings). -/
structure PlayerSettings where
  volume : ℚ
  playbackRate : ℚ
  isMuted : Bool
  isTheaterMode : Bool
  quality : String
deriving Repr, DecidableEq

/-- The store state held by zustand: videos, currentVideoId, settings. -/
structure VideoStore where
  videos : List VideoItem
  currentVideoId : Option String
  settings : PlayerSettings
deriving Repr, DecidableEq

/-- The defaults the store is created with. -/
def defaultSettings : PlayerSettings :=
  { volume := 4/5, playbackRate := 1, isMuted := false,
    isTheaterMode := false, quality := "auto" }

/-- The initial store state: empty catalog, no selection, default settings. -/
def initialStore : VideoStore :=
  { videos := [], currentVideoId := none, settings := defaultSettings }

/-- addVideo from the store: prepend after dropping any entry with the same
id, then keep only the first 50. -/
def addVideo (s : VideoStore) (v : VideoItem) : VideoStore :=
  { s with videos := (v :: s.videos.filter (fun w => w.id != v.id)).take 50 }

/-- removeVideo from the store: drop the entry with that id and clear the
selection when it pointed at that id. -/
def removeVideo (s : VideoStore) (id : String) : VideoStore :=
  { s with
    videos := s.videos.filter (fun v => v.id != id),
    currentVideoId := if s.currentVideoId = some id then none
                      else s.currentVideoId }

/-- setCurrentVideo from the store. -/
def setCurrentVideo (s : VideoStore) (id : Option String) : VideoStore :=
  { s with currentVideoId := id }

/-- updateVideoProgress from the store: map over the catalog, rewriting the
progress and lastPlayedAt of every entry whose id matches. -/
def updateVideoProgress (s : VideoStore) (id : String) (progress : ℚ)
    (now : ℤ) : VideoStore :=
  { s with videos := s.videos.map (fun v =>
      if v.id = id then { v with progress := some progress,
                                 lastPlayedAt := some now }
      else v) }

/-- An update record for updateSettings: each field is optionally present,
mirroring a TS Partial of PlayerSettings. -/
structure SettingsPatch where
  volume : Option ℚ
  playbackRate : Option ℚ
  isMuted : Option Bool
  isTheaterMode : Option Bool
  quality : Option String
deriving Repr, DecidableEq

/-- Shallow merge of a patch into the settings, as the object spread in
updateSettings does: a present field wins, an absent one keeps the old. -/
def mergeSettings (st : PlayerSettings) (p : SettingsPatch) : PlayerSettings :=
  { volume := p.volume.getD st.volume,
    playbackRate := p.playbackRate.getD st.playbackRate,
    isMuted := p.isMuted.getD st.isMuted,
    isTheaterMode := p.isTheaterMode.getD st.isTheaterMode,
    quality := p.quality.getD st.quality }

/-- updateSettings from the store: shallow-merge the patch into settings. -/
def updateSettings (s : VideoStore) (p : SettingsPatch) : VideoStore :=
  { s with settings := mergeSettings s.settings p }

/-- The persisted record produced by the store's partialize option. -/
structure PersistedState where
  videos : List VideoItem
  settings : PlayerSettings
deriving Repr, DecidableEq

/-- partialize from the store config: every item is copied with its source
blanked, and the settings are kept; currentVideoId is not persisted. -/
def partialize (s : VideoStore) : PersistedState :=
  { videos := s.videos.map (fun v => { v with source := "" }),
    settings := s.settings }

/-- PLAYBACK_SPEEDS from the player component. -/
def PLAYBACK_SPEEDS : List ℚ :=
  [1/4, 1/2, 3/4, 1, 5/4, 3/2, 7/4, 2, 5/2, 3]

/-- The catalog invariant of the spec: at most 50 entries, unique ids. -/
def CatalogInv (s : VideoStore) : Prop :=
  s.videos.length ≤ 50 ∧ (s.videos.map VideoItem.id).Nodup

instance (s : VideoStore) : Decidable (CatalogInv s) := by
  unfold CatalogInv; infer_instance

/-- The preferences invariant of the spec: volume in the unit interval and
playback rate drawn from the fixed speed list. -/
def SettingsInv (st : PlayerSettings) : Prop :=
  0 ≤ st.volume ∧ st.volume ≤ 1 ∧ st.playbackRate ∈ PLAYBACK_SPEEDS

instance (st : PlayerSettings) : Decidable (SettingsInv st) := by
  unfold SettingsInv; infer_instance

lemma addVideo_length_le (s : VideoStore) (v : VideoItem) :
    (addVideo s v).videos.length ≤ 50 := by
  simp [addVideo]

lemma addVideo_nodup (s : VideoStore) (v : VideoItem)
    (h : (s.videos.map VideoItem.id).Nodup) :
    ((addVideo s v).videos.map VideoItem.id).Nodup := by
  have hsub : List.Sublist (s.videos.filter (fun w => w.id != v.id))
      s.videos := List.filter_sublist _
  have htail : ((s.videos.filter (fun w => w.id != v.id)).map
      VideoItem.id).Nodup :=
    (hsub.map VideoItem.id).nodup h
  have hhead : v.id ∉ (s.videos.filter (fun w => w.id != v.id)).map
      VideoItem.id := by
    intro hmem
    rcases List.mem_map.mp hmem with ⟨w, hw, hid⟩
    have := List.of_mem_filter hw
    simp [bne_iff_ne] at this
    exact this hid
  have hfull : ((v :: s.videos.filter (fun w => w.id != v.id)).map
      VideoItem.id).Nodup := by
    simpa [List.nodup_cons] using And.intro hhead htail
  have hsub2 : List.Sublist ((addVideo s v).videos.map VideoItem.id)
      ((v :: s.videos.filter (fun w => w.id != v.id)).map VideoItem.id) := by
    simpa [addVideo] using
      (List.take_sublist 50 (v :: s.videos.filter
        (fun w => w.id != v.id))).map VideoItem.id
  exact hsub2.nodup hfull

lemma addVideo_inv (s : VideoStore) (v : VideoItem) (h : CatalogInv s) :
    CatalogInv (addVideo s v) :=
  ⟨addVideo_length_le s v, addVideo_nodup s v h.2⟩

lemma foldl_addVideo_inv (vs : List VideoItem) (s : VideoStore)
    (h : CatalogInv s) : CatalogInv (vs.foldl addVideo s) := by
  induction vs generalizing s with
  | nil => exact h
  | cons v vs ih => exact ih _ (addVideo_inv s v h)

lemma addVideo_full_fresh (s : VideoStore) (v : VideoItem)
    (_hlen : s.videos.length = 50)
    (hfresh : v.id ∉ s.videos.map VideoItem.id) :
    (addVideo s v).videos = v :: s.videos.take 49 := by
  have hfilter : s.videos.filter (fun w => w.id != v.id) = s.videos := by
    apply List.filter_eq_self.mpr
    intro a ha
    simp only [bne_iff_ne, ne_eq, decide_eq_true_eq]
    intro hid
    exact hfresh (hid ▸ List.mem_map_of_mem VideoItem.id ha)
  simp [addVideo, hfilter]

/-- The outcome the browser reports for the ephemeral decode session opened
by generateThumbnail: either metadata plus a captured frame become
available, or an error event fires. -/
inductive DecodeOutcome where
  | ok (duration : ℚ) (width : ℚ) (height : ℚ) (frame : String)
  | err
deriving Repr, DecidableEq

/-- The record generateThumbnail resolves with. -/
structure ThumbResult where
  thumbnail : String
  duration : ℚ
  width : ℚ
  height : ℚ
deriving Repr, DecidableEq

/-- generateThumbnail from helpers: on a successful decode and seek it
resolves the captured frame and the intrinsic metadata; on an error event
it resolves the degraded record instead of rejecting, so both branches are
an ok value of the Except. -/
def generateThumbnail (o : DecodeOutcome) : Except String ThumbResult :=
  match o with
  | DecodeOutcome.ok d w h frame =>
      Except.ok { thumbnail := frame, duration := d, width := w, height := h }
  | DecodeOutcome.err =>
      Except.ok { thumbnail := "", duration := 0, width := 0, height := 0 }

/-- The seek target chosen by generateThumbnail once metadata is known. -/
def thumbnailSeekTarget (duration : ℚ) : ℚ :=
  min 1 (duration * (1/10))

/-- The five event kinds the player's bind effect subscribes to. -/
inductive EventType where
  | timeupdate
  | loadedmetadata
  | error
  | play
  | pause
deriving Repr, DecidableEq

/-- One subscription on the media element: which bind run added it (its
epoch) and for which event. -/
structure Listener where
  epoch : ℕ
  event : EventType
deriving Repr, DecidableEq

/-- The listeners the bind effect registers, in source order. -/
def bindEffectAdds : List EventType :=
  [EventType.timeupdate, EventType.loadedmetadata, EventType.error,
   EventType.play, EventType.pause]

/-- The listeners the bind effect's cleanup removes, in source order. -/
def bindEffectRemoves : List EventType :=
  [EventType.timeupdate, EventType.loadedmetadata, EventType.error]

/-- Running the bind effect body with epoch n appends its subscriptions to
the element's listener list. -/
def runBindEffect (n : ℕ) (ls : List Listener) : List Listener :=
  ls ++ bindEffectAdds.map (fun e => { epoch := n, event := e })

/-- Running the cleanup of the bind with epoch n: removeEventListener drops
exactly the handler instances that bind registered for the named events. -/
def runBindCleanup (n : ℕ) (ls : List Listener) : List Listener :=
  ls.filter (fun l =>
    !(l.epoch == n && bindEffectRemoves.contains l.event))

/-- State consulted by the player's tap handler: the pending tap (time and
horizontal position) and whether playback is running. -/
structure TapState where
  lastTap : Option (ℤ × ℚ)
  isPlaying : Bool
deriving Repr, DecidableEq

/-- The externally visible effect of one tap. -/
inductive TapAction where
  | seek (amount : ℤ)
  | togglePlay
  | showControls
deriving Repr, DecidableEq

/-- handleTap from the player: a second tap within 300ms of the pending one
seeks by 10s away from or toward the start depending on which half of the
player was hit, and clears the pending tap; otherwise the tap is recorded
as pending and either reveals the controls (playing) or toggles playback
(paused). -/
def handleTap (st : TapState) (now : ℤ) (x rectLeft width : ℚ) :
    TapState × TapAction :=
  let relativeX := x - rectLeft
  let isLeftSide := relativeX < width / 2
  match st.lastTap with
  | some last =>
      if now - last.1 < 300 then
        ({ st with lastTap := none },
         TapAction.seek (if isLeftSide then -10 else 10))
      else
        ({ st with lastTap := some (now, x) },
         if st.isPlaying then TapAction.showControls else TapAction.togglePlay)
  | none =>
      ({ st with lastTap := some (now, x) },
       if st.isPlaying then TapAction.showControls else TapAction.togglePlay)

/-- The ArrowUp branch of handleKeyDown: raise the preference volume by 0.1,
clamped above at 1, through updateSettings. -/
def handleArrowUp (s : VideoStore) : VideoStore :=
  updateSettings s
    { volume := some (min 1 (s.settings.volume + 1/10)),
      playbackRate := none, isMuted := none, isTheaterMode := none,
      quality := none }

/-- The ArrowDown branch of handleKeyDown: lower the preference volume by
0.1, clamped below at 0, through updateSettings. -/
def handleArrowDown (s : VideoStore) : VideoStore :=
  updateSettings s
    { volume := some (max 0 (s.settings.volume - 1/10)),
      playbackRate := none, isMuted := none, isTheaterMode := none,
      quality := none }

/-- handleLocalUpload from the Uploader: each chosen file yields one new
item (id, thumbnail and timestamps come from the environment and are taken
here as given) which is added to the store; when exactly one file was
chosen, that item is also made the current selection. -/
def handleLocalUpload (s : VideoStore) (newVideos : List VideoItem) :
    VideoStore :=
  newVideos.foldl (fun st v =>
    let st1 := addVideo st v
    if newVideos.length = 1 then setCurrentVideo st1 (some v.id) else st1) s

/-- A concrete catalog entry used by closed instances of the theorems. -/
def mkItem (n : ℕ) : VideoItem :=
  { id := toString n, title := "t", source := "blob", thumbnail := none,
    subtitleUrl := none, metadata := none, addedAt := 0,
    lastPlayedAt := none, progress := none, favorite := none }

/-- A store whose catalog is exactly the 50 items mkItem 0 .. mkItem 49. -/
def fullStore : VideoStore :=
  { videos := (List.range 50).map mkItem, currentVideoId := none,
    settings := defaultSettings }

/-- C1: addVideo removes any entry with the new item's id, prepends, and
truncates to 50, so from the initial state every sequence of adds keeps the
catalog at no more than 50 entries with pairwise distinct ids, and adding a
fresh item to a full catalog keeps the new item plus the 49 most recent
old ones, evicting the last (least recently inserted) entry. -/
theorem c1_addVideo_bounded_unique :
    (∀ (vs : List VideoItem) (s : VideoStore),
        CatalogInv s → CatalogInv (vs.foldl addVideo s)) ∧
    CatalogInv initialStore ∧
    (∀ (s : VideoStore) (v : VideoItem),
        s.videos.length = 50 → v.id ∉ s.videos.map VideoItem.id →
        (addVideo s v).videos = v :: s.videos.take 49) :=
  ⟨foldl_addVideo_inv, by decide,
   fun s v hlen hfresh => addVideo_full_fresh s v hlen hfresh⟩

/-- C1 witness: the invariant after two concrete adds, and the eviction
equation on a concrete full catalog receiving a fresh 51st item. -/
theorem c1_addVideo_bounded_unique_witness :
    CatalogInv ([mkItem 0, mkItem 1].foldl addVideo initialStore) ∧
    (addVideo fullStore (mkItem 50)).videos =
      mkItem 50 :: fullStore.videos.take 49 :=
  ⟨c1_addVideo_bounded_unique.1 [mkItem 0, mkItem 1] initialStore
     (by decide),
   c1_addVideo_bounded_unique.2.2 fullStore (mkItem 50) (by decide)
     (by decide)⟩

/-- C2: the bind effect registers timeupdate, loadedmetadata, error, play
and pause subscriptions, but its cleanup removes only the first three; the
play and pause subscriptions survive the cleanup and accumulate across
rebinds, contradicting the claim that after cleanup the old resource holds
none of the subscriptions that binding added. -/
theorem c2_cleanup_leaves_play_pause :
    runBindCleanup 0 (runBindEffect 0 []) =
      [{ epoch := 0, event := EventType.play },
       { epoch := 0, event := EventType.pause }] ∧
    runBindCleanup 1 (runBindEffect 1
        (runBindCleanup 0 (runBindEffect 0 []))) =
      [{ epoch := 0, event := EventType.play },
       { epoch := 0, event := EventType.pause },
       { epoch := 1, event := EventType.play },
       { epoch := 1, event := EventType.pause }] := by
  decide

/-- C5: generateThumbnail resolves on every decode outcome and never
rejects; on the error path it resolves the degraded record with empty
preview and zeroed metadata. -/
theorem c5_generateThumbnail_total :
    (∀ o : DecodeOutcome, ∃ r : ThumbResult,
        generateThumbnail o = Except.ok r) ∧
    generateThumbnail DecodeOutcome.err =
      Except.ok { thumbnail := "", duration := 0, width := 0, height := 0 } := by
  constructor
  · intro o
    cases o with
    | ok d w h frame => exact ⟨_, rfl⟩
    | err => exact ⟨_, rfl⟩
  · rfl

/-- A concrete two-entry store with the second item selected. -/
def pairStore : VideoStore :=
  { videos := [mkItem 0, mkItem 1], currentVideoId := some "1",
    settings := defaultSettings }

/-- C3: updateVideoProgress keeps selection, settings and catalog length,
rewrites exactly the entries whose id matches (setting progress and
lastPlayedAt and nothing else), leaves every other entry identical, and
leaves the whole collection unchanged when the id is absent. -/
theorem c3_updateProgress_frame :
    ∀ (s : VideoStore) (id : String) (p : ℚ) (now : ℤ),
      (updateVideoProgress s id p now).currentVideoId = s.currentVideoId ∧
      (updateVideoProgress s id p now).settings = s.settings ∧
      (updateVideoProgress s id p now).videos.length = s.videos.length ∧
      (∀ i : ℕ, (updateVideoProgress s id p now).videos.get? i =
        (s.videos.get? i).map (fun v =>
          if v.id = id
          then { v with progress := some p, lastPlayedAt := some now }
          else v)) ∧
      (id ∉ s.videos.map VideoItem.id →
        (updateVideoProgress s id p now).videos = s.videos) := by
  intro s id p now
  refine ⟨rfl, rfl, by simp [updateVideoProgress], ?_, ?_⟩
  · intro i
    simp [updateVideoProgress, List.getElem?_map]
  · intro habs
    have hmap : s.videos.map (fun v =>
        if v.id = id
        then { v with progress := some p, lastPlayedAt := some now }
        else v) = s.videos.map (fun v => v) := by
      apply List.map_congr_left
      intro a ha
      have hne : a.id ≠ id := fun e =>
        habs (e ▸ List.mem_map_of_mem VideoItem.id ha)
      simp [hne]
    simpa [updateVideoProgress] using hmap

/-- C3 witness: on a concrete store, updating an absent id leaves the
collection unchanged, and updating a present id leaves the other entry
identical. -/
theorem c3_updateProgress_frame_witness :
    (updateVideoProgress pairStore "7" 5 1000).videos = pairStore.videos ∧
    (updateVideoProgress pairStore "1" 5 1000).videos.get? 0 =
      some (mkItem 0) := by
  constructor
  · exact (c3_updateProgress_frame pairStore "7" 5 1000).2.2.2.2 (by decide)
  · have h := (c3_updateProgress_frame pairStore "1" 5 1000).2.2.2.1 0
    rw [h]; decide

/-- C4: partialize keeps the settings and maps every catalog item to a copy
whose source is the empty string and whose other fields are untouched, so
no persisted snapshot carries a non-empty source locator. -/
theorem c4_partialize_blank_source :
    ∀ s : VideoStore,
      (∀ v ∈ (partialize s).videos, v.source = "") ∧
      (∀ i : ℕ, (partialize s).videos.get? i =
        (s.videos.get? i).map (fun v => { v with source := "" })) ∧
      (partialize s).videos.length = s.videos.length ∧
      (partialize s).settings = s.settings := by
  intro s
  refine ⟨?_, ?_, by simp [partialize], rfl⟩
  · intro v hv
    rcases List.mem_map.mp hv with ⟨w, _, rfl⟩
    rfl
  · intro i
    simp [partialize, List.getElem?_map]

/-- C4 witness: on a concrete store whose items carry a non-empty source,
the snapshot's first entry has an empty source and all its other fields
preserved. -/
theorem c4_partialize_blank_source_witness :
    ({ mkItem 0 with source := "" } : VideoItem).source = "" ∧
    (partialize pairStore).videos.get? 0 =
      some { mkItem 0 with source := "" } := by
  constructor
  · exact (c4_partialize_blank_source pairStore).1
      { mkItem 0 with source := "" } (by decide)
  · have h := (c4_partialize_blank_source pairStore).2.1 0
    rw [h]; decide

/-- C7: removeVideo deletes every entry carrying the id (afterwards no
entry has it) while keeping all other entries, clears the selection when
the removed id was selected, and leaves the selection unchanged when it
was not. -/
theorem c7_removeVideo_selection :
    ∀ (s : VideoStore) (id : String),
      id ∉ (removeVideo s id).videos.map VideoItem.id ∧
      (removeVideo s id).videos = s.videos.filter (fun v => v.id != id) ∧
      (s.currentVideoId = some id →
        (removeVideo s id).currentVideoId = none) ∧
      (s.currentVideoId ≠ some id →
        (removeVideo s id).currentVideoId = s.currentVideoId) ∧
      (removeVideo s id).settings = s.settings := by
  intro s id
  refine ⟨?_, rfl, ?_, ?_, rfl⟩
  · intro hmem
    rcases List.mem_map.mp hmem with ⟨w, hw, hid⟩
    have := List.of_mem_filter hw
    simp [bne_iff_ne] at this
    exact this hid
  · intro h
    simp [removeVideo, h]
  · intro h
    simp [removeVideo, h]

/-- C7 witness: on a concrete store selecting item "1", removing "1" clears
the selection and removing "0" keeps it. -/
theorem c7_removeVideo_selection_witness :
    (removeVideo pairStore "1").currentVideoId = none ∧
    (removeVideo pairStore "0").currentVideoId = some "1" := by
  constructor
  · exact (c7_removeVideo_selection pairStore "1").2.2.1 (by decide)
  · have h := (c7_removeVideo_selection pairStore "0").2.2.2.1 (by decide)
    rw [h]; decide

/-- C6: when a pending tap exists and a second tap lands within 300ms on
the same half as the first, the handler emits exactly one seek, by -10s on
the left half and +10s on the right, and clears the pending tap; a tap with
no live pending tap (none, or one older than the window) is recorded as the
new pending tap and only toggles playback when paused or reveals the
controls when playing, emitting no seek. -/
theorem c6_tap_disambiguation :
    (∀ (st : TapState) (now t : ℤ) (x1 x rectLeft width : ℚ),
        st.lastTap = some (t, x1) → now - t < 300 →
        x1 - rectLeft < width / 2 → x - rectLeft < width / 2 →
        handleTap st now x rectLeft width =
          ({ st with lastTap := none }, TapAction.seek (-10))) ∧
    (∀ (st : TapState) (now t : ℤ) (x1 x rectLeft width : ℚ),
        st.lastTap = some (t, x1) → now - t < 300 →
        ¬(x1 - rectLeft < width / 2) → ¬(x - rectLeft < width / 2) →
        handleTap st now x rectLeft width =
          ({ st with lastTap := none }, TapAction.seek 10)) ∧
    (∀ (st : TapState) (now : ℤ) (x rectLeft width : ℚ),
        (∀ t x1, st.lastTap = some (t, x1) → ¬(now - t < 300)) →
        (handleTap st now x rectLeft width).1.lastTap = some (now, x) ∧
        (handleTap st now x rectLeft width).2 =
          (if st.isPlaying then TapAction.showControls
           else TapAction.togglePlay) ∧
        (∀ a : ℤ, (handleTap st now x rectLeft width).2 ≠
          TapAction.seek a)) := by
  refine ⟨?_, ?_, ?_⟩
  · rintro ⟨lt, playing⟩ now t x1 x rectLeft width hlast htime _hx1 hx
    subst hlast
    simp [handleTap, htime, hx]
  · rintro ⟨lt, playing⟩ now t x1 x rectLeft width hlast htime _hx1 hx
    subst hlast
    simp [handleTap, htime, hx]
  · rintro ⟨lt, playing⟩ now x rectLeft width hstale
    match lt with
    | none =>
        refine ⟨rfl, rfl, ?_⟩
        intro a
        cases playing <;> simp [handleTap]
    | some (t, x1) =>
        have h := hstale t x1 rfl
        refine ⟨?_, ?_, ?_⟩
        · simp [handleTap, h]
        · simp [handleTap, h]
        · intro a
          cases playing <;> simp [handleTap, h]

/-- C6 witness: a concrete left-half double tap 100ms apart seeks by -10
and clears the pending tap. -/
theorem c6_tap_disambiguation_witness :
    handleTap { lastTap := some (0, 10), isPlaying := false } 100 20 0 100 =
      ({ lastTap := none, isPlaying := false }, TapAction.seek (-10)) :=
  c6_tap_disambiguation.1 { lastTap := some (0, 10), isPlaying := false }
    100 0 10 20 0 100 rfl (by decide) (by norm_num) (by norm_num)

/-- C8 counterexample: updateSettings performs no validation, so merging
the partial record that sets volume to 2 into the default settings leaves
the invariant violated, refuting preservation under arbitrary partials. -/
theorem c8_updateSettings_unvalidated :
    SettingsInv initialStore.settings ∧
    ¬ SettingsInv (updateSettings initialStore
      { volume := some 2, playbackRate := none, isMuted := none,
        isTheaterMode := none, quality := none }).settings := by
  constructor
  · unfold SettingsInv
    norm_num [initialStore, defaultSettings, PLAYBACK_SPEEDS]
  · unfold SettingsInv
    simp only [updateSettings, mergeSettings, initialStore, defaultSettings,
      Option.getD_some]
    norm_num

/-- C8 (amended): the defaults satisfy the invariant, and updateSettings
preserves it for every partial whose own supplied fields satisfy it, i.e.
whose volume, when present, lies in the unit interval and whose rate, when
present, is one of the fixed speeds. -/
theorem c8_settings_invariant_guarded :
    SettingsInv defaultSettings ∧
    ∀ (s : VideoStore) (p : SettingsPatch),
      SettingsInv s.settings →
      (∀ v, p.volume = some v → 0 ≤ v ∧ v ≤ 1) →
      (∀ r, p.playbackRate = some r → r ∈ PLAYBACK_SPEEDS) →
      SettingsInv (updateSettings s p).settings := by
  constructor
  · unfold SettingsInv
    norm_num [defaultSettings, PLAYBACK_SPEEDS]
  intro s p hs hv hr
  unfold SettingsInv at hs ⊢
  obtain ⟨h0, h1, h2⟩ := hs
  refine ⟨?_, ?_, ?_⟩
  · rcases hpv : p.volume with _ | v
    · simpa [updateSettings, mergeSettings, hpv] using h0
    · simpa [updateSettings, mergeSettings, hpv] using (hv v hpv).1
  · rcases hpv : p.volume with _ | v
    · simpa [updateSettings, mergeSettings, hpv] using h1
    · simpa [updateSettings, mergeSettings, hpv] using (hv v hpv).2
  · rcases hpr : p.playbackRate with _ | r
    · simpa [updateSettings, mergeSettings, hpr] using h2
    · simpa [updateSettings, mergeSettings, hpr] using hr r hpr

/-- C8 witness: a concrete in-range partial (volume one half, rate 2x, mute
on) applied to the initial store keeps the invariant. -/
theorem c8_settings_invariant_guarded_witness :
    SettingsInv (updateSettings initialStore
      { volume := some (1/2), playbackRate := some 2, isMuted := some true,
        isTheaterMode := none, quality := none }).settings := by
  apply c8_settings_invariant_guarded.2 initialStore _
    (by unfold SettingsInv
        norm_num [initialStore, defaultSettings, PLAYBACK_SPEEDS])
  · intro v hv
    rw [Option.some.injEq] at hv
    subst hv
    constructor <;> norm_num
  · intro r hr
    rw [Option.some.injEq] at hr
    subst hr
    norm_num [PLAYBACK_SPEEDS]

lemma foldl_addVideo_currentVideoId (vs : List VideoItem) (s : VideoStore) :
    (vs.foldl addVideo s).currentVideoId = s.currentVideoId := by
  induction vs generalizing s with
  | nil => rfl
  | cons v vs ih => exact ih (addVideo s v)

/-- C9: the ArrowUp and ArrowDown handlers set the preference volume to
min 1 (v + 0.1) and max 0 (v - 0.1) respectively, touching no other
preference, so from any volume in the unit interval the result stays in
the unit interval, and from 0.95 one increase yields exactly 1. -/
theorem c9_arrow_volume_clamped :
    ∀ s : VideoStore,
      (handleArrowUp s).settings.volume =
        min 1 (s.settings.volume + 1/10) ∧
      (handleArrowDown s).settings.volume =
        max 0 (s.settings.volume - 1/10) ∧
      (handleArrowUp s).settings.playbackRate = s.settings.playbackRate ∧
      (handleArrowUp s).settings.isMuted = s.settings.isMuted ∧
      (0 ≤ s.settings.volume → s.settings.volume ≤ 1 →
        0 ≤ (handleArrowUp s).settings.volume ∧
        (handleArrowUp s).settings.volume ≤ 1 ∧
        0 ≤ (handleArrowDown s).settings.volume ∧
        (handleArrowDown s).settings.volume ≤ 1) ∧
      (s.settings.volume = 19/20 → (handleArrowUp s).settings.volume = 1) := by
  intro s
  have hup : (handleArrowUp s).settings.volume =
      min 1 (s.settings.volume + 1/10) := rfl
  have hdn : (handleArrowDown s).settings.volume =
      max 0 (s.settings.volume - 1/10) := rfl
  refine ⟨hup, hdn, rfl, rfl, ?_, ?_⟩
  · intro h0 h1
    refine ⟨?_, ?_, ?_, ?_⟩
    · rw [hup]; exact le_min (by norm_num) (by linarith)
    · rw [hup]; exact min_le_left _ _
    · rw [hdn]; exact le_max_left _ _
    · rw [hdn]; exact max_le (by norm_num) (by linarith)
  · intro h
    rw [hup, h]
    norm_num

/-- A concrete store whose preference volume is 0.95. -/
def store95 : VideoStore :=
  { videos := [], currentVideoId := none,
    settings := { volume := 19/20, playbackRate := 1, isMuted := false,
                  isTheaterMode := false, quality := "auto" } }

/-- C9 witness: from the concrete store at volume 0.95 a single ArrowUp
reaches exactly volume 1. -/
theorem c9_arrow_volume_clamped_witness :
    (handleArrowUp store95).settings.volume = 1 :=
  (c9_arrow_volume_clamped store95).2.2.2.2.2 rfl

/-- C10: importing exactly one file makes the new item the current
selection; importing a batch of two or more files leaves the selection
exactly as it was. -/
theorem c10_upload_selection :
    ∀ (s : VideoStore) (vs : List VideoItem),
      (∀ v, vs = [v] →
        (handleLocalUpload s vs).currentVideoId = some v.id) ∧
      (2 ≤ vs.length →
        (handleLocalUpload s vs).currentVideoId = s.currentVideoId) := by
  intro s vs
  constructor
  · rintro v rfl
    rfl
  · intro hlen
    have hne : vs.length ≠ 1 := by omega
    have hfold : handleLocalUpload s vs = vs.foldl addVideo s := by
      unfold handleLocalUpload
      simp [hne]
    rw [hfold, foldl_addVideo_currentVideoId]

/-- C10 witness: one concrete file selects the new item; a concrete
two-file batch leaves the prior selection in place. -/
theorem c10_upload_selection_witness :
    (handleLocalUpload initialStore [mkItem 3]).currentVideoId =
      some (mkItem 3).id ∧
    (handleLocalUpload pairStore [mkItem 3, mkItem 4]).currentVideoId =
      some "1" := by
  constructor
  · exact (c10_upload_selection initialStore [mkItem 3]).1 (mkItem 3) rfl
  · have h := (c10_upload_selection pairStore [mkItem 3, mkItem 4]).2
      (by decide)
    rw [h]; decide
